import Mathlib

/-!
Shallow embedding of the "10-Second Challenge" core of the suiquest
repository, together with proofs about its documented behaviour.

Part 1 embeds the Move module `ten_second::game`
(`src/move/build/ten_second/sources/game.move`): the `Game` /
`Entry` / `Leaderboard` data model, the `start` / `stop` entry points,
`diff_from_target`, `update_leaderboard` and `default_name`.  Move `u64`
values are modelled as `Nat`; the only subtraction that can underflow in
the source (`now_ms - start_ms` in `stop`) is modelled by an explicit
arithmetic-abort branch, since Move `u64` subtraction aborts on
underflow.  A Move `assert!` failure or arithmetic abort rolls the whole
transaction back, so the entry points return `Except`: an error result
carries no new state.

Part 2 embeds the client synchronisation layer of
`src/frontend/src/pages/TenSecondChallenge.tsx`: `parseU64`,
`parseOption`, the entry parsing of `refreshLeaderboard`, the
`sortedEntries` derived view, `refreshGame`, the retry loop of
`runTransaction`, and the `bestDiffDisplay` projection.
-/

namespace TenSecond

/-- Move `address`, abstracted to a countable identity with decidable
equality (only equality of addresses is used by the module). -/
abbrev Address := Nat

/-- Move `vector<u8>`. -/
abbrev Bytes := List Nat

/-- Error code of the `assert!` in `start` (`ERR_ALREADY_STARTED`). -/
def ERR_ALREADY_STARTED : Nat := 1

/-- Error code of the `assert!` in `stop` (`ERR_NOT_STARTED`). -/
def ERR_NOT_STARTED : Nat := 2

/-- Target duration: exactly 10 seconds, in milliseconds. -/
def TARGET_MS : Nat := 10000

/-- Largest `u64` value, `u64::max_value!()`: the "no score yet"
sentinel used by `new_game` and `reset_best`. -/
def U64_MAX : Nat := 2 ^ 64 - 1

/-- The owned `Game` object (the `id: UID` field carries no game logic
and is omitted from the state). -/
structure Game where
  best_diff_ms : Nat
  active_start_ms : Option Nat
deriving Repr, DecidableEq

/-- One leaderboard record. -/
structure Entry where
  player : Address
  best_diff_ms : Nat
  name : Bytes
deriving Repr, DecidableEq

/-- The shared `Leaderboard` object (again without its `UID`). -/
structure Leaderboard where
  entries : List Entry
deriving Repr, DecidableEq

/-- The `StoppedEvent` emitted at the end of `stop`. -/
structure StoppedEvent where
  player : Address
  diff_ms : Nat
  new_best_ms : Nat
deriving Repr, DecidableEq

/-- Outcome of an aborted Move call: `abort code` for an `assert!`
failure with that code, `arithmeticUnderflow` for a native `u64`
subtraction underflow. -/
inductive MoveError where
  | abort (code : Nat)
  | arithmeticUnderflow
deriving Repr, DecidableEq

/-- Everything `stop` produces on success: the updated `Game`, the
updated `Leaderboard`, and the emitted `StoppedEvent`. -/
structure StopOutcome where
  game : Game
  board : Leaderboard
  event : StoppedEvent
deriving Repr, DecidableEq

/-- The `new_game` constructor (fields of the fresh object). -/
def new_game : Game :=
  { best_diff_ms := U64_MAX, active_start_ms := none }

/-- The `new_leaderboard` constructor. -/
def new_leaderboard : Leaderboard :=
  { entries := [] }

/-- The `start` entry point.  `now_ms` stands for
`clock::timestamp_ms(clock)`. -/
def start (game : Game) (now_ms : Nat) : Except MoveError Game :=
  if game.active_start_ms.isSome then
    .error (.abort ERR_ALREADY_STARTED)
  else
    .ok { game with active_start_ms := some now_ms }

/-- The helper `diff_from_target`: absolute distance of the elapsed
time from `TARGET_MS`, written with the same branch as the source. -/
def diff_from_target (elapsed_ms : Nat) : Nat :=
  if elapsed_ms ≥ TARGET_MS then elapsed_ms - TARGET_MS
  else TARGET_MS - elapsed_ms

/-- The helper `default_name`: the byte string `b"player"`
(`[0x70, 0x6c, 0x61, 0x79, 0x65, 0x72]`), ignoring its address
argument. -/
def default_name (_addr : Address) : Bytes :=
  [112, 108, 97, 121, 101, 114]

/-- The `while` loop of `update_leaderboard`, as structural recursion
over the entries list: the first entry whose `player` matches is
updated in place and scanning stops (`return` in the source); if no
entry matches, one new entry is appended at the end
(`vector::push_back`). -/
def update_entries (player : Address) (diff : Nat) (name : Bytes) :
    List Entry → List Entry
  | [] =>
      let final_name := if name.isEmpty then default_name player else name
      [{ player := player, best_diff_ms := diff, name := final_name }]
  | e :: rest =>
      if e.player == player then
        let e1 := if diff < e.best_diff_ms then { e with best_diff_ms := diff } else e
        let e2 := if name.isEmpty then e1 else { e1 with name := name }
        e2 :: rest
      else
        e :: update_entries player diff name rest

/-- The private function `update_leaderboard`. -/
def update_leaderboard (board : Leaderboard) (player : Address) (diff : Nat)
    (name : Bytes) : Leaderboard :=
  { board with entries := update_entries player diff name board.entries }

/-- The `stop` entry point.  `now_ms` stands for
`clock::timestamp_ms(clock)` and `sender` for
`tx_context::sender(ctx)`.  The source computes
`elapsed = now_ms - start_ms` on `u64`, which aborts when
`now_ms < start_ms`; that native abort is the `arithmeticUnderflow`
branch. -/
def stop (game : Game) (board : Leaderboard) (now_ms : Nat) (name : Bytes)
    (sender : Address) : Except MoveError StopOutcome :=
  match game.active_start_ms with
  | none => .error (.abort ERR_NOT_STARTED)
  | some start_ms =>
      if now_ms < start_ms then .error .arithmeticUnderflow
      else
        let elapsed := now_ms - start_ms
        let diff := diff_from_target elapsed
        let best := if diff < game.best_diff_ms then diff else game.best_diff_ms
        .ok
          { game := { best_diff_ms := best, active_start_ms := none }
            board := update_leaderboard board sender diff name
            event := { player := sender, diff_ms := diff, new_best_ms := best } }

/-- The ledger-level view of `start`: an aborted transaction is rolled
back, leaving the `Game` unchanged. -/
def startTx (game : Game) (now_ms : Nat) : Game :=
  match start game now_ms with
  | .ok g => g
  | .error _ => game

/-- The ledger-level view of `stop`: an aborted transaction is rolled
back, leaving both the `Game` and the `Leaderboard` unchanged. -/
def stopTx (game : Game) (board : Leaderboard) (now_ms : Nat) (name : Bytes)
    (sender : Address) : Game × Leaderboard :=
  match stop game board now_ms name sender with
  | .ok r => (r.game, r.board)
  | .error _ => (game, board)

/-- Observation: the `best_diff_ms` of the first entry for `p`, if
any. -/
def bestOf (es : List Entry) (p : Address) : Option Nat :=
  (es.find? (fun e => e.player == p)).map Entry.best_diff_ms

/-- Observation: the `name` of the first entry for `p`, if any. -/
def nameOf (es : List Entry) (p : Address) : Option Bytes :=
  (es.find? (fun e => e.player == p)).map Entry.name

end TenSecond

namespace Client

/-- JavaScript's `Number.MAX_SAFE_INTEGER`, `2 ^ 53 - 1`. -/
def MAX_SAFE_INTEGER : Nat := 2 ^ 53 - 1

/-- A raw JSON field value as `parseU64` receives it.  On-chain `u64`
fields arrive as decimal strings, so a convertible value is a `Nat`:
`missing` is `null`/`undefined`, `num n` is a value `BigInt` converts
to `n`, and `malformed` is a value on which `BigInt` throws. -/
inductive Raw where
  | missing
  | num (n : Nat)
  | malformed
deriving Repr, DecidableEq

/-- The client's `parseU64`: `null` for missing input, for input
`BigInt` rejects, and for any value above `Number.MAX_SAFE_INTEGER`;
otherwise the number itself. -/
def parseU64 : Raw → Option Nat
  | .missing => none
  | .num n => if n > MAX_SAFE_INTEGER then none else some n
  | .malformed => none

/-- A raw `Option<u64>` field as `parseOption` receives it: an object
with a `some`/`Some` key, an object with a `none`/`None` key, a plain
string, or a falsy value. -/
inductive RawOpt where
  | someField (n : Nat)
  | noneField
  | strVal (n : Nat)
  | absent
deriving Repr, DecidableEq

/-- The client's `parseOption`. -/
def parseOption : RawOpt → Option Nat
  | .someField n => some n
  | .noneField => none
  | .strVal n => some n
  | .absent => none

/-- The client's `GameState` mirror (`{bestDiffMs, activeStartMs}`). -/
structure GameState where
  bestDiffMs : Option Nat
  activeStartMs : Option Nat
deriving Repr, DecidableEq

/-- A parsed leaderboard row.  The `name` field is kept as the raw
byte array here; the UTF-8 text decoding applied by `safeDecodeName`
is presentation-only and carries no byte information used by the
synchronisation layer. -/
structure BoardEntry where
  player : String
  bestDiffMs : Nat
  name : Option TenSecond.Bytes
deriving Repr, DecidableEq

/-- A raw leaderboard entry as fetched: the `player` address string
(absent when the field is missing), the raw `best_diff_ms` value, and
the raw `name` byte array (absent when the field is not an array). -/
structure RawEntry where
  player : Option String
  best_diff_ms : Raw
  name : Option TenSecond.Bytes
deriving Repr, DecidableEq

/-- The name projection of `refreshLeaderboard`:
`Array.isArray(rawName) && rawName.length ? safeDecodeName(...) :
undefined` — a present non-empty byte array is kept, anything else
becomes `undefined`. -/
def decodeEntryName : Option TenSecond.Bytes → Option TenSecond.Bytes
  | some bs => if bs.isEmpty then none else some bs
  | none => none

/-- The per-entry body of the `map` in `refreshLeaderboard`: parse the
score with `parseU64`, reject the entry (`return null`) when the
player address is falsy (missing or the empty string) or the score is
unparsable, otherwise build a `BoardEntry`.  (`Number.isFinite(best)`
in the source is always true once `parseU64` returned a number, since
that number is at most `MAX_SAFE_INTEGER`.) -/
def parseEntry (e : RawEntry) : Option BoardEntry :=
  match parseU64 e.best_diff_ms, e.player with
  | some best, some p =>
      if p = "" then none
      else some { player := p, bestDiffMs := best, name := decodeEntryName e.name }
  | _, _ => none

/-- The `map` + `filter(Boolean)` pipeline of `refreshLeaderboard`
over the raw entries array. -/
def parseEntries (raws : List RawEntry) : List BoardEntry :=
  raws.filterMap parseEntry

/-- The `sortedEntries` memo: filter (vacuous for parsed entries, whose
`bestDiffMs` is always a finite number), copy (`slice()` — value
semantics here), sort ascending by `bestDiffMs` (JavaScript's stable
sort, modelled by `mergeSort`), and keep the first 10. -/
def sortedEntries (entries : List BoardEntry) : List BoardEntry :=
  ((entries.mergeSort (fun a b => a.bestDiffMs ≤ b.bestDiffMs)).take 10)

/-- One `client.getObject` response as `refreshGame` sees it:
`content` carries the two raw fields, `noContent` is a response whose
`data?.content?.fields` is absent (e.g. a 404 / not-yet-indexed
object), `throwErr` is a thrown request error. -/
inductive FetchOutcome where
  | content (best : Raw) (active : RawOpt)
  | noContent
  | throwErr
deriving Repr, DecidableEq

/-- The component state `refreshGame` touches: the cached game mirror
and the error banner. -/
structure ClientView where
  game : Option GameState
  error : Option String
deriving Repr, DecidableEq

/-- The body of `refreshGame` on one `getObject` response: with
content, replace the cached game state; with no content, return with
the state untouched; on a thrown error, catch it and set the error
banner.  Nothing is rethrown to the caller. -/
def refreshGame (prev : ClientView) (resp : FetchOutcome) : ClientView :=
  match resp with
  | .content best active =>
      { prev with
        game := some { bestDiffMs := parseU64 best, activeStartMs := parseOption active } }
  | .noContent => prev
  | .throwErr => { prev with error := some "Unable to read game object." }

/-- The function `refreshGame` run against a per-attempt response oracle: the
source issues exactly one `getObject` call, so only attempt `0` is
ever consulted. -/
def refreshGameWith (prev : ClientView) (oracle : Nat → FetchOutcome) : ClientView :=
  refreshGame prev (oracle 0)

/-- The retry loop of `runTransaction`: `for (let i = 0; i < 3; i++)`
around `fetchDetails()`, recording the last error and sleeping 800 ms
between attempts; after the loop, `throw lastErr`.  `f i` is the
result of the `i`-th `fetchDetails()` call (details abstracted to a
`Nat`, thrown errors to a `String`); the loop's error type is
`Option String` because the final `throw` falls back to a fresh
`Error` when no attempt ran (`lastErr ?? new Error(...)`). -/
def fetchDetailsLoop (f : Nat → Except String Nat) :
    Nat → Nat → Option String → Except (Option String) Nat
  | _, 0, lastErr => .error lastErr
  | i, fuel + 1, _ =>
      match f i with
      | .ok d => .ok d
      | .error e => fetchDetailsLoop f (i + 1) fuel (some e)

/-- The waiting phase of `runTransaction`: three allotted attempts,
starting at attempt `0` with no recorded error. -/
def runTransactionWait (f : Nat → Except String Nat) : Except (Option String) Nat :=
  fetchDetailsLoop f 0 3 none

/-- The `bestDiffDisplay` projection: a number only when a game is
cached and its `bestDiffMs` is a (finite, non-null) number, otherwise
the "No score yet" placeholder. -/
def bestDiffDisplay (game : Option GameState) : String :=
  match game with
  | some g =>
      match g.bestDiffMs with
      | some n => toString n ++ " ms"
      | none => "No score yet"
  | none => "No score yet"

end Client

namespace TenSecond

/-- Helper: `diff_from_target` computes the absolute distance from the
10000 ms target. -/
theorem diff_from_target_eq_natAbs (e : Nat) :
    diff_from_target e = ((e : Int) - 10000).natAbs := by
  unfold diff_from_target TARGET_MS
  split <;> omega

/-- Helper: the branch `if diff < best then diff else best` of `stop`
is the minimum. -/
theorem ite_lt_eq_min (a b : Nat) : (if a < b then a else b) = min b a := by
  split <;> omega

/-- C1: on a running `Game` with start time `t0` and previous best `b`,
`stop` at clock time `t1 = t0 + d ≥ t0` computes
`diff = |(t1 - t0) - 10000|`, sets `best_diff_ms` to `min b diff`,
clears `active_start_ms`, applies the leaderboard update, and emits a
`StoppedEvent` with `diff_ms = diff` and `new_best_ms = min b diff`. -/
theorem stop_from_running_spec (b t0 d : Nat) (board : Leaderboard)
    (name : Bytes) (sender : Address) :
    stop { best_diff_ms := b, active_start_ms := some t0 } board (t0 + d) name sender =
      .ok
        { game := { best_diff_ms := min b (diff_from_target d), active_start_ms := none }
          board := update_leaderboard board sender (diff_from_target d) name
          event :=
            { player := sender, diff_ms := diff_from_target d,
              new_best_ms := min b (diff_from_target d) } } ∧
    diff_from_target d = (((t0 + d : Int) - t0) - 10000).natAbs := by
  constructor
  · simp only [stop]
    rw [if_neg (by omega : ¬ t0 + d < t0)]
    simp only [Nat.add_sub_cancel_left, ite_lt_eq_min]
  · rw [diff_from_target_eq_natAbs]
    congr 1
    omega

/-- C2: `start` aborts with code 1 (`ERR_ALREADY_STARTED`) exactly when
a timer is already running, `stop` aborts with code 2
(`ERR_NOT_STARTED`) exactly when no timer is running, and in each
failure case the rolled-back transaction leaves the `Game` (and for
`stop`, the `Leaderboard`) unchanged. -/
theorem start_stop_precondition_errors (g : Game) (board : Leaderboard)
    (b t now : Nat) (name : Bytes) (sender : Address) :
    (start g now = .error (.abort ERR_ALREADY_STARTED) ↔ g.active_start_ms.isSome) ∧
    (stop g board now name sender = .error (.abort ERR_NOT_STARTED) ↔
      g.active_start_ms = none) ∧
    startTx { best_diff_ms := b, active_start_ms := some t } now =
      { best_diff_ms := b, active_start_ms := some t } ∧
    stopTx { best_diff_ms := b, active_start_ms := none } board now name sender =
      ({ best_diff_ms := b, active_start_ms := none }, board) := by
  refine ⟨?_, ?_, ?_, ?_⟩
  · by_cases h : g.active_start_ms.isSome <;> simp [start, h]
  · cases h : g.active_start_ms with
    | none => simp [stop, h]
    | some s =>
        simp only [stop, h]
        split <;> simp
  · simp [startTx, start]
  · simp [stopTx, stop]

/-- C9: when the clock time passed to `stop` is strictly below the
stored start time, the `u64` subtraction `now_ms - start_ms`
underflows and the call aborts; `stop` returns successfully exactly
when a start time is stored and it is at most the clock time. -/
theorem stop_underflow_guard (b d now : Nat) (board : Leaderboard)
    (name : Bytes) (sender : Address) :
    stop { best_diff_ms := b, active_start_ms := some (now + d + 1) } board
        now name sender = .error .arithmeticUnderflow ∧
    (∀ g : Game, ∀ t : Nat,
      (∃ r, stop g board t name sender = .ok r) ↔
        ∃ s, g.active_start_ms = some s ∧ s ≤ t) := by
  constructor
  · simp only [stop]
    rw [if_pos (by omega : now < now + d + 1)]
  · intro g t
    cases h : g.active_start_ms with
    | none => simp [stop, h]
    | some s =>
        simp only [stop, h]
        split
        · simp only [Option.some.injEq]
          constructor
          · rintro ⟨r, hr⟩
            cases hr
          · rintro ⟨s', hs', hle⟩
            omega
        · simp only [Option.some.injEq]
          constructor
          · intro
            exact ⟨s, rfl, by omega⟩
          · intro
            exact ⟨_, rfl⟩

/-- Helper: the loop falls through an empty entries list and appends
one fresh entry, with the `default_name` fallback for an empty name. -/
theorem update_entries_nil (p : Address) (diff : Nat) (name : Bytes) :
    update_entries p diff name [] =
      [{ player := p, best_diff_ms := diff,
         name := if name.isEmpty then default_name p else name }] := rfl

/-- Helper: on the first matching entry, the loop updates that entry
in place (score to the minimum, name only when non-empty) and stops:
the tail is returned untouched. -/
theorem update_entries_cons_hit (p : Address) (diff : Nat) (name : Bytes)
    (e : Entry) (rest : List Entry) (h : e.player = p) :
    update_entries p diff name (e :: rest) =
      { player := e.player, best_diff_ms := min e.best_diff_ms diff,
        name := if name.isEmpty then e.name else name } :: rest := by
  obtain ⟨ep, eb, en⟩ := e
  simp only at h
  simp only [update_entries, h, beq_self_eq_true, if_true]
  split_ifs <;> simp_all <;> omega

/-- Helper: a non-matching entry is kept as is and the loop moves on. -/
theorem update_entries_cons_miss (p : Address) (diff : Nat) (name : Bytes)
    (e : Entry) (rest : List Entry) (h : ¬ e.player = p) :
    update_entries p diff name (e :: rest) =
      e :: update_entries p diff name rest := by
  simp only [update_entries, beq_iff_eq, h, if_false]

/-- Helper: the player column after an update — unchanged when the
player already has a row, extended by exactly that player otherwise. -/
theorem update_entries_players (p : Address) (diff : Nat) (name : Bytes) :
    ∀ es : List Entry,
      (update_entries p diff name es).map Entry.player =
        if p ∈ es.map Entry.player then es.map Entry.player
        else es.map Entry.player ++ [p]
  | [] => by simp [update_entries_nil]
  | e :: rest => by
      by_cases h : e.player = p
      · rw [update_entries_cons_hit p diff name e rest h]
        simp [h]
      · rw [update_entries_cons_miss p diff name e rest h]
        have ih := update_entries_players p diff name rest
        have hne : ¬ p = e.player := fun hpe => h hpe.symm
        by_cases hm : p ∈ rest.map Entry.player <;>
          simp [hm, ih, hne, List.mem_cons]

/-- C3: `update_leaderboard` preserves the at-most-one-entry-per-player
invariant: on a leaderboard whose player column has no duplicates, the
player column afterwards still has no duplicates, it is unchanged when
the player already had a row (that row is updated in place, nothing is
appended) and is extended by exactly one row for that player
otherwise; either way the player ends up with exactly one row. -/
theorem update_leaderboard_dedup (es : List Entry) (p : Address) (diff : Nat)
    (name : Bytes) (hnd : (es.map Entry.player).Nodup) :
    ((update_entries p diff name es).map Entry.player).Nodup ∧
    (update_entries p diff name es).map Entry.player =
      (if p ∈ es.map Entry.player then es.map Entry.player
       else es.map Entry.player ++ [p]) ∧
    List.count p ((update_entries p diff name es).map Entry.player) = 1 := by
  have hp := update_entries_players p diff name es
  refine ⟨?_, hp, ?_⟩
  · rw [hp]
    by_cases hm : p ∈ es.map Entry.player
    · simpa [hm] using hnd
    · simp only [hm, if_false]
      rw [List.nodup_append]
      exact ⟨hnd, List.nodup_singleton p, by
        intro a ha hb
        simp only [List.mem_singleton] at hb
        exact hm (hb ▸ ha)⟩
  · rw [hp]
    by_cases hm : p ∈ es.map Entry.player
    · simp only [hm, if_true]
      exact List.count_eq_one_of_mem hnd hm
    · simp only [hm, if_false, List.count_append,
        List.count_eq_zero_of_not_mem hm, List.count_singleton]
      simp

/-- Witness for `update_leaderboard_dedup` at a concrete one-row
leaderboard already containing the player. -/
theorem update_leaderboard_dedup_witness :
    (([⟨1, 50, [97]⟩] : List Entry).map Entry.player).Nodup ∧
    (((update_entries 1 20 [] [⟨1, 50, [97]⟩]).map Entry.player).Nodup ∧
      (update_entries 1 20 [] [⟨1, 50, [97]⟩]).map Entry.player =
        (if 1 ∈ ([⟨1, 50, [97]⟩] : List Entry).map Entry.player
         then ([⟨1, 50, [97]⟩] : List Entry).map Entry.player
         else ([⟨1, 50, [97]⟩] : List Entry).map Entry.player ++ [1]) ∧
      List.count 1 ((update_entries 1 20 [] [⟨1, 50, [97]⟩]).map Entry.player) = 1) :=
  ⟨by decide, update_leaderboard_dedup [⟨1, 50, [97]⟩] 1 20 [] (by decide)⟩

/-- C4: the score the update leaves for the player is exactly
`min existing diff` when the player already had a row and `diff`
otherwise — a row's `best_diff_ms` is never replaced by a larger
value. -/
theorem update_entries_best_min (p : Address) (diff : Nat) (name : Bytes) :
    ∀ es : List Entry,
      bestOf (update_entries p diff name es) p =
        some
          (match bestOf es p with
           | some b => min b diff
           | none => diff)
  | [] => by
      simp [update_entries_nil, bestOf]
  | e :: rest => by
      by_cases h : e.player = p
      · rw [update_entries_cons_hit p diff name e rest h]
        simp [bestOf, List.find?_cons_of_pos, h]
      · rw [update_entries_cons_miss p diff name e rest h]
        have ih := update_entries_best_min p diff name rest
        have hf1 :
            List.find? (fun x : Entry => x.player == p)
                (e :: update_entries p diff name rest) =
              List.find? (fun x : Entry => x.player == p)
                (update_entries p diff name rest) :=
          List.find?_cons_of_neg _ (by simp [h])
        have hf2 :
            List.find? (fun x : Entry => x.player == p) (e :: rest) =
              List.find? (fun x : Entry => x.player == p) rest :=
          List.find?_cons_of_neg _ (by simp [h])
        simp only [bestOf] at ih ⊢
        rw [hf1, hf2]
        exact ih

/-- C5: the name the update leaves for the player — an existing row
keeps its old name when the supplied name is empty and takes the
supplied name otherwise; a fresh row gets the supplied name, or the
`default_name` fallback (the byte literal `b"player"`) when it is
empty. -/
theorem update_entries_name (p : Address) (diff : Nat) (name : Bytes) :
    ∀ es : List Entry,
      nameOf (update_entries p diff name es) p =
        some
          (match nameOf es p with
           | some n0 => if name.isEmpty then n0 else name
           | none => if name.isEmpty then default_name p else name)
  | [] => by
      simp only [update_entries_nil, nameOf, List.find?]
      split_ifs <;> simp
  | e :: rest => by
      by_cases h : e.player = p
      · rw [update_entries_cons_hit p diff name e rest h]
        simp [nameOf, List.find?_cons_of_pos, h]
      · rw [update_entries_cons_miss p diff name e rest h]
        have ih := update_entries_name p diff name rest
        have hf1 :
            List.find? (fun x : Entry => x.player == p)
                (e :: update_entries p diff name rest) =
              List.find? (fun x : Entry => x.player == p)
                (update_entries p diff name rest) :=
          List.find?_cons_of_neg _ (by simp [h])
        have hf2 :
            List.find? (fun x : Entry => x.player == p) (e :: rest) =
              List.find? (fun x : Entry => x.player == p) rest :=
          List.find?_cons_of_neg _ (by simp [h])
        simp only [nameOf] at ih ⊢
        rw [hf1, hf2]
        exact ih

end TenSecond

namespace Client

/-- Helper: unrolling the three allotted attempts of the
`runTransaction` waiting loop. -/
theorem runTransactionWait_eq (f : Nat → Except String Nat) :
    runTransactionWait f =
      match f 0 with
      | .ok d => .ok d
      | .error _ =>
          match f 1 with
          | .ok d => .ok d
          | .error _ =>
              match f 2 with
              | .ok d => .ok d
              | .error e2 => .error (some e2) := by
  show fetchDetailsLoop f 0 (2 + 1) none = _
  rcases h0 : f 0 with d0 | e0 <;>
    simp only [fetchDetailsLoop, h0]

/-- C7: a malformed raw leaderboard entry (missing player address or
unparsable score) is skipped while a well-formed one is parsed: in
either order, a two-entry raw array with one good and one bad entry
yields exactly the one parsed `BoardEntry`, and no failure escapes the
per-entry parser. -/
theorem parseEntries_skips_malformed (good bad : RawEntry) (b : BoardEntry)
    (hgood : parseEntry good = some b)
    (hbad : bad.player = none ∨ parseU64 bad.best_diff_ms = none) :
    parseEntries [good, bad] = [b] ∧ parseEntries [bad, good] = [b] := by
  have hb : parseEntry bad = none := by
    rcases hbad with h | h <;>
      rcases hp : parseU64 bad.best_diff_ms with _ | v <;>
      rcases hq : bad.player with _ | s <;>
      simp_all [parseEntry]
  constructor <;> simp [parseEntries, hgood, hb]

/-- Witness for `parseEntries_skips_malformed`: one well-formed entry
and one entry whose player address is missing. -/
theorem parseEntries_skips_malformed_witness :
    parseEntries
        [{ player := some "0xa", best_diff_ms := .num 20, name := some [116] },
         { player := none, best_diff_ms := .num 5, name := none }] =
      [{ player := "0xa", bestDiffMs := 20, name := some [116] }] ∧
    parseEntries
        [{ player := none, best_diff_ms := .num 5, name := none },
         { player := some "0xa", best_diff_ms := .num 20, name := some [116] }] =
      [{ player := "0xa", bestDiffMs := 20, name := some [116] }] :=
  parseEntries_skips_malformed
    { player := some "0xa", best_diff_ms := .num 20, name := some [116] }
    { player := none, best_diff_ms := .num 5, name := none }
    { player := "0xa", bestDiffMs := 20, name := some [116] }
    (by decide) (Or.inl rfl)

/-- C8: the derived `sortedEntries` view is sorted ascending by
`bestDiffMs`, is (as a multiset) contained in the cached entries, and
has exactly `min 10 |entries|` rows — it is a read-time projection of
a copy, and the cached `entries` value it is computed from is left as
is. -/
theorem sortedEntries_spec (es : List BoardEntry) :
    (sortedEntries es).Pairwise (fun a b => a.bestDiffMs ≤ b.bestDiffMs) ∧
    List.Subperm (sortedEntries es) es ∧
    (sortedEntries es).length = min 10 es.length := by
  refine ⟨?_, ?_, ?_⟩
  · have hs :=
      @List.sorted_mergeSort BoardEntry
        (fun a b : BoardEntry => decide (a.bestDiffMs ≤ b.bestDiffMs))
        (fun a b c hab hbc => by
          simp only [decide_eq_true_eq] at *
          omega)
        (fun a b => by
          simp only [Bool.or_eq_true, decide_eq_true_eq]
          omega)
        es
    have := List.Pairwise.sublist (List.take_sublist 10 _) hs
    simpa [sortedEntries] using this
  · exact ((List.take_sublist 10 _).subperm).trans
      (List.mergeSort_perm es _).subperm
  · simp [sortedEntries, List.length_take, List.length_mergeSort]

/-- C10: `parseU64` yields `null` for every value strictly above
`Number.MAX_SAFE_INTEGER = 2 ^ 53 - 1` — in particular for the `u64`
maximum used as the fresh-game sentinel — making any such on-chain
score indistinguishable from an absent one, and the best-score panel
then shows the "No score yet" placeholder. -/
theorem parseU64_overflow_null (n : Nat) (h : MAX_SAFE_INTEGER < n)
    (a : Option Nat) :
    parseU64 (.num n) = none ∧
    parseU64 (.num TenSecond.U64_MAX) = none ∧
    parseU64 (.num n) = parseU64 .missing ∧
    bestDiffDisplay
        (some { bestDiffMs := parseU64 (.num n), activeStartMs := a }) =
      "No score yet" := by
  have h1 : parseU64 (.num n) = none := by
    simp only [parseU64]
    rw [if_pos h]
  refine ⟨h1, ?_, by rw [h1]; rfl, by simp [h1, bestDiffDisplay]⟩
  have hm : MAX_SAFE_INTEGER < TenSecond.U64_MAX := by
    rw [MAX_SAFE_INTEGER, TenSecond.U64_MAX]
    norm_num
  simp only [parseU64]
  rw [if_pos hm]

/-- Witness for `parseU64_overflow_null` at the `u64` maximum. -/
theorem parseU64_overflow_null_witness :
    parseU64 (.num TenSecond.U64_MAX) = none ∧
    parseU64 (.num TenSecond.U64_MAX) = none ∧
    parseU64 (.num TenSecond.U64_MAX) = parseU64 .missing ∧
    bestDiffDisplay
        (some { bestDiffMs := parseU64 (.num TenSecond.U64_MAX),
                activeStartMs := none }) =
      "No score yet" :=
  parseU64_overflow_null TenSecond.U64_MAX (by decide) none

/-- C6 counterexample: an oracle whose content is unavailable on
attempt 0 but available from attempt 1 on (the "2nd of 3 allotted
retries").  `refreshGame` issues a single `getObject` call, so the
cached game state stays absent: it is not the populated state the
claim predicts for a success on the 2nd retry. -/
theorem refreshGame_no_retry_counterexample :
    (refreshGameWith { game := none, error := none }
        (fun i => if i = 0 then .noContent else .content (.num 20) .noneField)).game =
      none ∧
    (refreshGameWith { game := none, error := none }
        (fun i => if i = 0 then .noContent else .content (.num 20) .noneField)).game ≠
      some { bestDiffMs := some 20, activeStartMs := none } := by
  constructor
  · rfl
  · intro hc
    cases hc

/-- C6 (amended): `refreshGame` makes exactly one fetch attempt, and
when the content is unavailable it returns without throwing, leaving
the cached game state untouched; the bounded retry (3 attempts with a
fixed 800 ms delay) lives in `runTransaction`, which succeeds when an
attempt succeeds by the 2nd try and, after all three attempts fail,
throws the last recorded error to its caller. -/
theorem client_retry_policy (prev : ClientView) (oracle : Nat → FetchOutcome)
    (f g : Nat → Except String Nat) (d : Nat) (e0 ea eb ec : String)
    (hf0 : f 0 = .error e0) (hf1 : f 1 = .ok d)
    (hg0 : g 0 = .error ea) (hg1 : g 1 = .error eb) (hg2 : g 2 = .error ec) :
    refreshGameWith prev oracle = refreshGame prev (oracle 0) ∧
    refreshGame prev .noContent = prev ∧
    runTransactionWait f = .ok d ∧
    runTransactionWait g = .error (some ec) := by
  refine ⟨rfl, rfl, ?_, ?_⟩
  · rw [runTransactionWait_eq, hf0, hf1]
  · rw [runTransactionWait_eq, hg0, hg1, hg2]

/-- Witness for `client_retry_policy`: concrete oracles failing on the
first attempt and succeeding on the second, and failing on all
three. -/
theorem client_retry_policy_witness :
    refreshGameWith { game := none, error := none } (fun _ => .noContent) =
      refreshGame { game := none, error := none }
        ((fun _ => .noContent) 0) ∧
    refreshGame { game := none, error := none } .noContent =
      { game := none, error := none } ∧
    runTransactionWait (fun i => if i = 0 then .error "lag" else .ok 7) = .ok 7 ∧
    runTransactionWait (fun _ => .error "down") = .error (some "down") :=
  client_retry_policy { game := none, error := none } (fun _ => .noContent)
    (fun i => if i = 0 then .error "lag" else .ok 7) (fun _ => .error "down")
    7 "lag" "down" "down" "down" rfl rfl rfl rfl rfl

end Client
